import Mathlib

set_option maxHeartbeats 1000000

/-!
Verification development for the CI build helper `src/build_helper/build.py`
of the repository `wong1975/xiaomi_ax3600-stock-immortalwrt-K`.

Text (file contents, file names, cache keys) is modelled as `List Char`,
matching Python strings at the code-point level.  Pure computations of the
script (the `.config` rewrite, the cache-key builders, the job-name
dispatch, the package collectors) are translated directly; the sequential,
effectful parts of each job stage are modelled as explicit lists of actions
run against an oracle that decides which external calls succeed.
-/

namespace BuildHelper

/-- Shorthand for the code-point sequence of a piece of text. -/
abbrev Chars := List Char

/-! ## The `.config` rewrite of `build_image_builder` (build.py lines 196-211)

The source reads the whole `.config`, splits it into lines and writes the
file back line by line:

* a line matching one of the three patterns
  `CONFIG_(?P<name>[^_=]+)_IMAGES=y`, `CONFIG_TARGET_ROOTFS_(?P<name>[^_=]+)=y`,
  `CONFIG_TARGET_IMAGES_(?P<name>[^_=]+)=y` whose captured name is in the
  denylist is written with every occurrence of `=y` replaced by `=n`;
* a matching line whose name is not in the denylist is not written at all;
* a non-matching line is written back unchanged;
* finally `CONFIG_IB=y` and `CONFIG_IB_STANDALONE=y` are appended.
-/

/-- Python `line.replace("=y", "=n")`: replace every (non-overlapping,
left-to-right) occurrence of `=y` by `=n`. -/
def replaceYN : Chars → Chars
  | [] => []
  | '=' :: 'y' :: rest => '=' :: 'n' :: replaceYN rest
  | c :: rest => c :: replaceYN rest

/-- Character class `[^_=]` used by the three regular expressions. -/
def nonDelim (c : Char) : Bool := !(c = '_' || c = '=')

/-- Python `re.match` for a pattern of the shape
`pre (?P<name>[^_=]+) post` where `post` begins with `_` or `=`.
Because the captured group cannot contain `_` or `=` while `post` starts
with one of these two characters, the greedy group must take the whole
maximal run of non-`_`/`=` characters after `pre`; `re.match` only anchors
at the start, so trailing text after `post` is allowed. -/
def matchCfgPat (pre post line : Chars) : Option Chars :=
  if pre.isPrefixOf line then
    let after := line.drop pre.length
    let nm := after.takeWhile nonDelim
    let rest := after.dropWhile nonDelim
    if nm ≠ [] ∧ post.isPrefixOf rest then some nm else none
  else none

/-- The three-pattern match of build.py lines 200-202, tried in source
order; returns the captured `name` group of the first pattern to match. -/
def configMatch (line : Chars) : Option Chars :=
  match matchCfgPat "CONFIG_".data "_IMAGES=y".data line with
  | some nm => some nm
  | none =>
    match matchCfgPat "CONFIG_TARGET_ROOTFS_".data "=y".data line with
    | some nm => some nm
    | none => matchCfgPat "CONFIG_TARGET_IMAGES_".data "=y".data line

/-- The fixed denylist of image-format names (build.py line 204). -/
def denylist : List Chars :=
  ["ISO".data, "VDI".data, "VMDK".data, "VHDX".data, "TARGZ".data,
   "CPIOGZ".data, "EXT4FS".data, "SQUASHFS".data, "GZIP".data]

/-- The lines contributed to the rewritten `.config` by one input line
(the loop body, build.py lines 199-208). -/
def rewriteLine (line : Chars) : List Chars :=
  match configMatch line with
  | some nm => if nm ∈ denylist then [replaceYN line] else []
  | none => [line]

/-- The loop over all lines of the original `.config`. -/
def rewriteLines : List Chars → List Chars
  | [] => []
  | l :: ls => rewriteLine l ++ rewriteLines ls

/-- First line unconditionally appended (build.py line 209). -/
def ibLine1 : Chars := "CONFIG_IB=y".data

/-- Second line unconditionally appended (build.py line 210). -/
def ibLine2 : Chars := "CONFIG_IB_STANDALONE=y".data

/-- The complete `.config` rewrite of `build_image_builder`
(build.py lines 196-211), as a function from the original lines to the
lines of the rewritten file. -/
def rewriteConfig (lines : List Chars) : List Chars :=
  rewriteLines lines ++ [ibLine1, ibLine2]

theorem rewriteLines_append (a b : List Chars) :
    rewriteLines (a ++ b) = rewriteLines a ++ rewriteLines b := by
  induction a with
  | nil => rfl
  | cons l ls ih => simp [rewriteLines, ih]

/-- C1 counterexample: the line `CONFIG_TARGET_ROOTFS_SQUASHFS=y=n` ends in
`=n`, yet the rewrite changes it (the regular expressions are not anchored
at the end of the line, so a line ending in `=n` can still match a pattern
and have its `=y` flipped).  This refutes the conjunct "it never changes a
line already ending in '=n'" of the claim as stated. -/
theorem c1_endsN_changed :
    ("=n".data.isSuffixOf "CONFIG_TARGET_ROOTFS_SQUASHFS=y=n".data = true) ∧
    rewriteLine "CONFIG_TARGET_ROOTFS_SQUASHFS=y=n".data =
      ["CONFIG_TARGET_ROOTFS_SQUASHFS=n=n".data] ∧
    rewriteLine "CONFIG_TARGET_ROOTFS_SQUASHFS=y=n".data ≠
      ["CONFIG_TARGET_ROOTFS_SQUASHFS=y=n".data] := by
  refine ⟨by decide, by decide, by decide⟩

/-- C1 (amended): the rewrite passes every non-matching line through
unchanged; a matching line whose captured name is in the denylist is
written with `=y` replaced by `=n` (`replaceYN`); a line ending in `=n`
that matches none of the three patterns is never changed; the two lines
`CONFIG_IB=y` and `CONFIG_IB_STANDALONE=y` are always appended at the end;
and the end-to-end example from the claim holds. -/
theorem c1_config_rewrite :
    (∀ lines, rewriteConfig lines = rewriteLines lines ++ [ibLine1, ibLine2]) ∧
    (∀ l, configMatch l = none → rewriteLine l = [l]) ∧
    (∀ l nm, configMatch l = some nm → nm ∈ denylist →
      rewriteLine l = [replaceYN l]) ∧
    (∀ l, "=n".data.isSuffixOf l = true → configMatch l = none →
      rewriteLine l = [l]) ∧
    rewriteConfig ["CONFIG_TARGET_ROOTFS_SQUASHFS=y".data, "CONFIG_FOO=y".data] =
      ["CONFIG_TARGET_ROOTFS_SQUASHFS=n".data, "CONFIG_FOO=y".data,
       ibLine1, ibLine2] := by
  refine ⟨fun _ => rfl, ?_, ?_, ?_, by decide⟩
  · intro l h
    simp [rewriteLine, h]
  · intro l nm h hm
    simp [rewriteLine, h, hm]
  · intro l _ h
    simp [rewriteLine, h]

/-- C1 witness: the amended theorem applied at the concrete line
`CONFIG_X=n`, which matches no pattern and passes through unchanged. -/
theorem c1_config_rewrite_witness :
    configMatch "CONFIG_X=n".data = none ∧
    rewriteLine "CONFIG_X=n".data = ["CONFIG_X=n".data] :=
  ⟨by decide, c1_config_rewrite.2.1 "CONFIG_X=n".data (by decide)⟩

/-- C10: a line matching one of the three patterns whose captured name is
not in the denylist contributes nothing to the rewritten file: it is
omitted entirely, neither preserved nor flipped to `=n`. -/
theorem c10_nondenylist_dropped :
    (∀ l nm, configMatch l = some nm → nm ∉ denylist → rewriteLine l = []) ∧
    (∀ l nm a b, configMatch l = some nm → nm ∉ denylist →
      rewriteConfig (a ++ l :: b) = rewriteConfig (a ++ b)) := by
  have h1 : ∀ l nm, configMatch l = some nm → nm ∉ denylist →
      rewriteLine l = [] := by
    intro l nm h hm
    simp [rewriteLine, h, hm]
  refine ⟨h1, ?_⟩
  intro l nm a b h hm
  unfold rewriteConfig
  rw [rewriteLines_append, rewriteLines_append]
  have : rewriteLines (l :: b) = rewriteLine l ++ rewriteLines b := rfl
  rw [this, h1 l nm h hm]
  simp

/-- C10 witness: the theorem applied at the concrete line
`CONFIG_GRUB_IMAGES=y` (captured name `GRUB`, not in the denylist), which
is dropped from the output. -/
theorem c10_nondenylist_dropped_witness :
    configMatch "CONFIG_GRUB_IMAGES=y".data = some "GRUB".data ∧
    rewriteLine "CONFIG_GRUB_IMAGES=y".data = [] :=
  ⟨by decide,
   c10_nondenylist_dropped.1 "CONFIG_GRUB_IMAGES=y".data "GRUB".data
     (by decide) (by decide)⟩

/-! ## Cache keys (`get_cache_restore_key`, build.py lines 21-38)

`get_cache_restore_key` maps `context.job` to one of three job kinds by
`startswith` (anything else raises `ValueError`), and builds
`f"<kind>-<tag>-<name>"`, then appends `f"-<target>"` and
`f"-<subtarget>"` when those values are truthy (non-`None`, non-empty).
-/

/-- The three job kinds recognised by `get_cache_restore_key`
(build.py lines 23-28). -/
inductive JobKind where
  | baseBuilds
  | buildPackages
  | buildImageBuilder
deriving DecidableEq

/-- First dash-separated segment of the job-kind string. -/
def jobSeg0 : JobKind → Chars
  | .baseBuilds => "base".data
  | .buildPackages => "build".data
  | .buildImageBuilder => "build".data

/-- Second dash-separated segment of the job-kind string. -/
def jobSeg1 : JobKind → Chars
  | .baseBuilds => "builds".data
  | .buildPackages => "packages".data
  | .buildImageBuilder => "ImageBuilder".data

/-- The `job_prefix` string of `get_cache_restore_key`. -/
def jobKindData (k : JobKind) : Chars := jobSeg0 k ++ '-' :: jobSeg1 k

theorem jobKindData_eq :
    jobKindData .baseBuilds = "base-builds".data ∧
    jobKindData .buildPackages = "build-packages".data ∧
    jobKindData .buildImageBuilder = "build-ImageBuilder".data := by decide

/-- Python truthiness append: `if target: key += f"-{target}"` contributes
`-target` exactly when the value is present and non-empty. -/
def optPart : Option Chars → Chars
  | none => []
  | some t => if t = [] then [] else '-' :: t

/-- The cache restore key of build.py lines 32-38, as a function of the
job kind, `cfg["compile"]["openwrt_tag/branch"]`, `cfg["name"]` and the
target/subtarget returned by `openwrt.get_target()`. -/
def get_cache_restore_key (k : JobKind) (tag nm : Chars)
    (tg st : Option Chars) : Chars :=
  ((jobKindData k ++ '-' :: tag ++ '-' :: nm) ++ optPart tg) ++ optPart st

/-- Split a character list at every `-`, the inverse view used to show
when the dash-joined cache key determines its components. -/
def splitDash : Chars → List Chars
  | [] => [[]]
  | c :: rest =>
    if c = '-' then [] :: splitDash rest
    else
      match splitDash rest with
      | [] => [[c]]
      | g :: gs => (c :: g) :: gs

theorem splitDash_ne_nil (l : Chars) : splitDash l ≠ [] := by
  induction l with
  | nil => simp [splitDash]
  | cons c rest ih =>
    by_cases h : c = '-'
    · simp [splitDash, h]
    · simp only [splitDash, if_neg h]
      rcases hr : splitDash rest with _ | ⟨g, gs⟩
      · simp
      · simp

theorem splitDash_sep (a b : Chars) (ha : '-' ∉ a) :
    splitDash (a ++ '-' :: b) = a :: splitDash b := by
  induction a with
  | nil => simp [splitDash]
  | cons c a ih =>
    have hc : c ≠ '-' := by intro h; exact ha (by simp [h])
    have ha' : '-' ∉ a := fun h => ha (List.mem_cons_of_mem c h)
    rw [List.cons_append]
    simp only [splitDash, if_neg hc, ih ha']

theorem splitDash_nodash (a : Chars) (ha : '-' ∉ a) : splitDash a = [a] := by
  induction a with
  | nil => rfl
  | cons c a ih =>
    have hc : c ≠ '-' := by intro h; exact ha (by simp [h])
    have ha' : '-' ∉ a := fun h => ha (List.mem_cons_of_mem c h)
    simp only [splitDash, if_neg hc, ih ha']

/-- A usable key component: non-empty and containing no `-`. -/
def GoodComp (l : Chars) : Prop := l ≠ [] ∧ '-' ∉ l

/-- An optional key component that is either absent or usable. -/
def GoodOpt : Option Chars → Prop
  | none => True
  | some t => GoodComp t

theorem jobSeg0_nodash (k : JobKind) : '-' ∉ jobSeg0 k := by
  cases k <;> decide

theorem jobSeg1_nodash (k : JobKind) : '-' ∉ jobSeg1 k := by
  cases k <;> decide

theorem jobSeg_inj (k k' : JobKind) (h0 : jobSeg0 k = jobSeg0 k')
    (h1 : jobSeg1 k = jobSeg1 k') : k = k' := by
  cases k <;> cases k' <;> first
    | rfl
    | (exfalso; revert h0 h1; decide)

theorem splitDash_key (k : JobKind) (tag nm : Chars) (tg st : Option Chars)
    (htag : '-' ∉ tag) (hnm : '-' ∉ nm) (hg : GoodOpt tg) (hs : GoodOpt st)
    (hshape : st.isSome → tg.isSome) :
    splitDash (get_cache_restore_key k tag nm tg st) =
      jobSeg0 k :: jobSeg1 k :: tag ::
        (match tg, st with
         | none, _ => [nm]
         | some t, none => [nm, t]
         | some t, some s => [nm, t, s]) := by
  have h0 := jobSeg0_nodash k
  have h1 := jobSeg1_nodash k
  rcases tg with _ | t
  · rcases st with _ | s
    · show splitDash (((jobKindData k ++ '-' :: tag ++ '-' :: nm) ++ []) ++ []) = _
      simp only [List.append_nil, jobKindData, List.append_assoc, List.cons_append]
      rw [splitDash_sep _ _ h0, splitDash_sep _ _ h1, splitDash_sep _ _ htag,
        splitDash_nodash _ hnm]
    · exact absurd (hshape rfl) (by simp)
  · rcases hg with ⟨ht0, ht1⟩
    rcases st with _ | s
    · show splitDash (((jobKindData k ++ '-' :: tag ++ '-' :: nm) ++ optPart (some t)) ++ []) = _
      rw [show optPart (some t) = '-' :: t from by simp [optPart, ht0]]
      simp only [List.append_nil, jobKindData, List.append_assoc, List.cons_append]
      rw [splitDash_sep _ _ h0, splitDash_sep _ _ h1, splitDash_sep _ _ htag,
        splitDash_sep _ _ hnm, splitDash_nodash _ ht1]
    · rcases hs with ⟨hs0, hs1⟩
      show splitDash (((jobKindData k ++ '-' :: tag ++ '-' :: nm) ++ optPart (some t)) ++ optPart (some s)) = _
      rw [show optPart (some t) = '-' :: t from by simp [optPart, ht0],
        show optPart (some s) = '-' :: s from by simp [optPart, hs0]]
      simp only [jobKindData, List.append_assoc, List.cons_append]
      rw [splitDash_sep _ _ h0, splitDash_sep _ _ h1, splitDash_sep _ _ htag,
        splitDash_sep _ _ hnm, splitDash_sep _ _ ht1, splitDash_nodash _ hs1]

/-- C5 counterexample: the dash-joined cache key does not uniquely identify
the tuple.  The distinct tuples (tag `a-b`, name `c`) and (tag `a`, name
`b-c`) produce the same key `base-builds-a-b-c`. -/
theorem c5_key_collision :
    get_cache_restore_key .baseBuilds "a-b".data "c".data none none =
      get_cache_restore_key .baseBuilds "a".data "b-c".data none none ∧
    ¬("a-b".data = "a".data ∧ "c".data = "b-c".data) := by
  refine ⟨by decide, by decide⟩

/-- C5 (amended): the key builder is a pure function (identical tuples give
identical keys definitionally), and on tuples whose tag, name, target and
subtarget components are non-empty and free of `-` (with a subtarget only
ever present together with a target), the key determines the whole tuple:
distinct such tuples never share a key, so changing any single component
changes the key. -/
theorem c5_key_injective (k k' : JobKind) (tag tag' nm nm' : Chars)
    (tg tg' st st' : Option Chars)
    (h1 : GoodComp tag) (h2 : GoodComp nm) (h3 : GoodOpt tg) (h4 : GoodOpt st)
    (h5 : st.isSome → tg.isSome)
    (h1' : GoodComp tag') (h2' : GoodComp nm') (h3' : GoodOpt tg')
    (h4' : GoodOpt st') (h5' : st'.isSome → tg'.isSome)
    (hkey : get_cache_restore_key k tag nm tg st =
      get_cache_restore_key k' tag' nm' tg' st') :
    k = k' ∧ tag = tag' ∧ nm = nm' ∧ tg = tg' ∧ st = st' := by
  have hsplit := congrArg splitDash hkey
  rw [splitDash_key k tag nm tg st h1.2 h2.2 h3 h4 h5,
    splitDash_key k' tag' nm' tg' st' h1'.2 h2'.2 h3' h4' h5'] at hsplit
  rcases tg with _ | t <;> rcases tg' with _ | t' <;>
    rcases st with _ | s <;> rcases st' with _ | s'
  -- (tg, tg', st, st') = (none, none, none, none)
  · simp at hsplit
    exact ⟨jobSeg_inj _ _ hsplit.1 hsplit.2.1, hsplit.2.2.1, hsplit.2.2.2,
      rfl, rfl⟩
  -- (none, none, none, some)
  · exact absurd (h5' rfl) (by simp)
  -- (none, none, some, none)
  · exact absurd (h5 rfl) (by simp)
  -- (none, none, some, some)
  · exact absurd (h5 rfl) (by simp)
  -- (none, some, none, none): 4 segments vs 5 segments
  · simp at hsplit
  -- (none, some, none, some)
  · simp at hsplit
  -- (none, some, some, none)
  · exact absurd (h5 rfl) (by simp)
  -- (none, some, some, some)
  · exact absurd (h5 rfl) (by simp)
  -- (some, none, none, none): 5 segments vs 4 segments
  · simp at hsplit
  -- (some, none, none, some)
  · exact absurd (h5' rfl) (by simp)
  -- (some, none, some, none): 6 segments vs 4 segments
  · simp at hsplit
  -- (some, none, some, some)
  · exact absurd (h5' rfl) (by simp)
  -- (some, some, none, none): 5 vs 5, diagonal
  · simp at hsplit
    exact ⟨jobSeg_inj _ _ hsplit.1 hsplit.2.1, hsplit.2.2.1, hsplit.2.2.2.1,
      by rw [hsplit.2.2.2.2], rfl⟩
  -- (some, some, none, some): 5 vs 6
  · simp at hsplit
  -- (some, some, some, none): 6 vs 5
  · simp at hsplit
  -- (some, some, some, some): 6 vs 6, diagonal
  · simp at hsplit
    exact ⟨jobSeg_inj _ _ hsplit.1 hsplit.2.1, hsplit.2.2.1, hsplit.2.2.2.1,
      by rw [hsplit.2.2.2.2.1], by rw [hsplit.2.2.2.2.2]⟩

/-- C5 witness: the injectivity theorem applied at a concrete tuple with
dash-free components. -/
theorem c5_key_injective_witness :
    JobKind.baseBuilds = JobKind.baseBuilds ∧
    "main".data = "main".data ∧ "ax3600".data = "ax3600".data ∧
    (some "qualcommax".data : Option Chars) = some "qualcommax".data ∧
    (some "ipq807x".data : Option Chars) = some "ipq807x".data :=
  c5_key_injective .baseBuilds .baseBuilds "main".data "main".data
    "ax3600".data "ax3600".data (some "qualcommax".data) (some "qualcommax".data)
    (some "ipq807x".data) (some "ipq807x".data)
    ⟨by decide, by decide⟩ ⟨by decide, by decide⟩ ⟨by decide, by decide⟩
    ⟨by decide, by decide⟩ (fun _ => rfl)
    ⟨by decide, by decide⟩ ⟨by decide, by decide⟩ ⟨by decide, by decide⟩
    ⟨by decide, by decide⟩ (fun _ => rfl) rfl

/-! ## The toolchain cache key (`prepare`, build.py lines 57-65)

The `base-builds` branch of `prepare` computes
`toolchain_key = f"toolchain-<hash_dirs((tools, toolchain))>"` and then
appends `-<target>` and `-<subtarget>` when `openwrt.get_target()` yields
truthy values, so the key depends on the target metadata as well as on the
directory hash.
-/

/-- A directory, as the list of its files (relative path and content). -/
abbrev Dirtree := List (Chars × Chars)

/-- One character absorbed into a running 64-bit hash value. -/
def hashStep (a : Nat) (c : Char) : Nat := (a * 131 + c.toNat) % (2 ^ 64)

/-- A character list absorbed into a running hash value. -/
def hashChars (a : Nat) (l : Chars) : Nat := l.foldl hashStep a

/-- A file (path and content) absorbed into a running hash value. -/
def hashFile (a : Nat) (f : Chars × Chars) : Nat := hashChars (hashChars a f.1) f.2

/-- A directory absorbed into a running hash value. -/
def hashDirtree (a : Nat) (d : Dirtree) : Nat := d.foldl hashFile a

/-- The hexadecimal digit characters. -/
def hexDigitChar (n : Nat) : Char := "0123456789abcdef".data.getD n '0'

/-- Fixed-width hexadecimal rendering of a natural number. -/
def natToHex : Nat → Nat → Chars
  | 0, _ => []
  | w + 1, v => natToHex w (v / 16) ++ [hexDigitChar (v % 16)]

/-- Modelled from the spec: `hash_dirs` (imported from `.utils.utils`,
whose source is not part of the listing) computes a content hash of the
given directories, so that the toolchain cache key "changes whenever their
inputs change"; modelled as a deterministic 64-bit content hash rendered
as 16 hexadecimal characters. -/
def hash_dirs (dirs : List Dirtree) : Chars :=
  natToHex 16 (dirs.foldl hashDirtree 5381)

theorem natToHex_length (w : Nat) : ∀ v, (natToHex w v).length = w := by
  induction w with
  | zero => intro v; rfl
  | succ w ih => intro v; simp [natToHex, ih]

theorem hash_dirs_length (dirs : List Dirtree) :
    (hash_dirs dirs).length = 16 := natToHex_length 16 _

/-- The inputs of the toolchain-key computation: the `tools/` and
`toolchain/` directories of the restored source tree, and the target and
subtarget read from the tree's configuration by `openwrt.get_target()`
(which looks outside those two directories). -/
structure PrepState where
  tools : Dirtree
  toolchain : Dirtree
  target : Option Chars
  subtarget : Option Chars

/-- The toolchain cache key of build.py lines 59-64. -/
def toolchain_key (s : PrepState) : Chars :=
  (("toolchain-".data ++ hash_dirs [s.tools, s.toolchain]) ++ optPart s.target)
    ++ optPart s.subtarget

/-- Two prepare states over identical `tools/` and `toolchain/` contents
(hence an identical content hash) whose configured target differs. -/
def c4StateA : PrepState :=
  ⟨[("Makefile".data, "all:".data)], [], some "qualcommax".data,
   some "ipq807x".data⟩

/-- Like `c4StateA` but for a different target, with the hashed
directories unchanged. -/
def c4StateB : PrepState :=
  ⟨[("Makefile".data, "all:".data)], [], some "mediatek".data,
   some "filogic".data⟩

/-- C4 counterexample: the toolchain cache key is not a function of the
`tools/`/`toolchain/` content hash alone.  Two states with identical
hashed directories (identical hash) but different target metadata get
different keys, refuting "it is unchanged whenever that hash is unchanged,
regardless of all other inputs". -/
theorem c4_key_changes_without_hash_change :
    c4StateA.tools = c4StateB.tools ∧
    c4StateA.toolchain = c4StateB.toolchain ∧
    hash_dirs [c4StateA.tools, c4StateA.toolchain] =
      hash_dirs [c4StateB.tools, c4StateB.toolchain] ∧
    toolchain_key c4StateA ≠ toolchain_key c4StateB := by
  refine ⟨rfl, rfl, rfl, by decide⟩

/-- C4 (amended): the toolchain cache key is unchanged whenever the
content hash of `tools/` and `toolchain/` *and* the target and subtarget
are all unchanged, and it always changes when that hash changes; the hash
alone does not determine the key — with the hash unchanged, a change of
target can change the key, as the counterexample shows. -/
theorem c4_toolchain_key (s s' : PrepState) :
    (hash_dirs [s.tools, s.toolchain] = hash_dirs [s'.tools, s'.toolchain] →
      s.target = s'.target → s.subtarget = s'.subtarget →
      toolchain_key s = toolchain_key s') ∧
    (hash_dirs [s.tools, s.toolchain] ≠ hash_dirs [s'.tools, s'.toolchain] →
      toolchain_key s ≠ toolchain_key s') := by
  constructor
  · intro h1 h2 h3
    unfold toolchain_key
    rw [h1, h2, h3]
  · intro hne hkey
    apply hne
    simp only [toolchain_key, List.append_assoc] at hkey
    have h2 := List.append_cancel_left hkey
    exact List.append_inj_left h2
      (by rw [hash_dirs_length, hash_dirs_length])

/-- C4 witness: the amended theorem applied at two concrete states whose
directory contents (and hence hashes) differ, giving different keys. -/
theorem c4_toolchain_key_witness :
    hash_dirs [c4StateA.tools, c4StateA.toolchain] ≠
      hash_dirs [([] : Dirtree), ([] : Dirtree)] ∧
    toolchain_key c4StateA ≠ toolchain_key ⟨[], [], c4StateA.target, c4StateA.subtarget⟩ :=
  ⟨by decide,
   (c4_toolchain_key c4StateA ⟨[], [], c4StateA.target, c4StateA.subtarget⟩).2
     (by decide)⟩

/-! ## The `CACHE_HIT` normalization (`base_builds`, build.py line 133)

`os.getenv("CACHE_HIT", "").lower().strip() != "true"` guards the
toolchain rebuild.  `strip` uses the full whitespace set of Python's
`str.strip()`/`str.isspace()`; `lower` is modelled on the ASCII letters,
which is faithful for the comparison against the ASCII string `true`:
lowercasing maps every whitespace character to itself, and the only code
points whose Python lowercase is an ASCII letter of `true` are the ASCII
uppercase letters themselves. -/

/-- The code points Python's `str.isspace()` (and hence bare
`str.strip()`) recognises as whitespace: U+0009-U+000D, U+001C-U+001F,
the space, U+0085, U+00A0, U+1680, U+2000-U+200A, U+2028, U+2029,
U+202F, U+205F and U+3000. -/
def pyWhitespace : List Nat :=
  [9, 10, 11, 12, 13, 28, 29, 30, 31, 32, 133, 160, 5760,
   8192, 8193, 8194, 8195, 8196, 8197, 8198, 8199, 8200, 8201, 8202,
   8232, 8233, 8239, 8287, 12288]

/-- Python `str.strip()` whitespace test. -/
def pyIsSpace (c : Char) : Bool := pyWhitespace.contains c.toNat

/-- Python `str.lower()` on one character (ASCII letters). -/
def pyLowerChar (c : Char) : Char :=
  if 65 ≤ c.toNat ∧ c.toNat ≤ 90 then Char.ofNat (c.toNat + 32) else c

/-- Python `str.lower()` (ASCII letters). -/
def pyLower (l : Chars) : Chars := l.map pyLowerChar

/-- Python `str.strip()`: remove leading and trailing whitespace. -/
def pyStrip (l : Chars) : Chars :=
  ((l.dropWhile pyIsSpace).reverse.dropWhile pyIsSpace).reverse

theorem pyIsSpace_lower (c : Char) : pyIsSpace (pyLowerChar c) = pyIsSpace c := by
  unfold pyLowerChar
  by_cases h : 65 ≤ c.toNat ∧ c.toNat ≤ 90
  · rw [if_pos h]
    obtain ⟨h1, h2⟩ := h
    simp only [pyIsSpace]
    set n := c.toNat with hn
    interval_cases n <;> decide
  · rw [if_neg h]

theorem dropWhile_pyLower (l : Chars) :
    List.dropWhile pyIsSpace (pyLower l) = pyLower (List.dropWhile pyIsSpace l) := by
  induction l with
  | nil => rfl
  | cons c l ih =>
    show List.dropWhile pyIsSpace (pyLowerChar c :: pyLower l) = _
    rw [List.dropWhile_cons, List.dropWhile_cons, pyIsSpace_lower]
    by_cases h : pyIsSpace c
    · simp [h, ih]
    · simp [h, pyLower]

theorem pyStrip_pyLower (l : Chars) : pyStrip (pyLower l) = pyLower (pyStrip l) := by
  unfold pyStrip
  rw [dropWhile_pyLower]
  rw [show (pyLower (List.dropWhile pyIsSpace l)).reverse
        = pyLower (List.dropWhile pyIsSpace l).reverse from
      (List.map_reverse ..).symm]
  rw [dropWhile_pyLower]
  exact (List.map_reverse ..).symm

/-! ## Sequential execution of a build stage

Each job stage of build.py is a straight-line sequence of effectful steps
(subprocess invocations, file operations, uploader registrations) in which
any step may raise and abort the stage; in addition the script contains
pure checks that raise unconditionally when their condition is false
(explicit `raise` statements, and Python's name resolution).  A stage is
modelled as a list of actions, executed against an oracle that decides
which external calls succeed; execution stops at the first failure and a
failing call performs no effect. -/

/-- An observable effect of a build stage. -/
inductive Event where
  | setupEnv (a b : Bool)
  | dlArtifact (nm : Chars)
  | extractArchive (nm : Chars)
  | rmTree (path : Chars)
  | copyTree (path : Chars)
  | setOutput (key : Chars)
  | enableKmods (onlyKmods : Bool)
  | writeConfigFile
  | makeDefconfig
  | downloadSource (tgt : Chars)
  | make (tgt : Chars)
  | ccacheStash
  | ccacheRestore
  | archiveCreate (nm : Chars)
  | copyFile (nm : Chars)
  | moveFile (nm : Chars)
  | uploadAdd (key : Chars)
  | delCache (key : Chars)
  | logDir (path : Chars)
  | logListing (files : List Chars)
deriving DecidableEq

/-- One step of a stage: an external effectful call (whose success the
oracle decides), or a pure check that raises `msg` when `ok` is false. -/
inductive Action where
  | call (e : Event)
  | check (ok : Bool) (msg : Chars)
deriving DecidableEq

/-- Error text standing for an external call that raised. -/
def extFail : Chars := "external step failed".data

/-- Run a stage: perform actions in order, stopping at the first external
failure or failed check; a failing call contributes no event.  Returns the
performed events and the error, if any, that aborted the stage. -/
def runActs (oracle : Nat → Bool) : List Action → Nat → List Event × Option Chars
  | [], _ => ([], none)
  | Action.call e :: rest, i =>
    if oracle i then
      let r := runActs oracle rest (i + 1)
      (e :: r.1, r.2)
    else ([], some extFail)
  | Action.check ok msg :: rest, i =>
    if ok then runActs oracle rest (i + 1) else ([], some msg)

/-- The events a stage performs when every step succeeds. -/
def callEvents : List Action → List Event
  | [] => []
  | Action.call e :: rest => e :: callEvents rest
  | Action.check _ _ :: rest => callEvents rest

theorem callEvents_append (a b : List Action) :
    callEvents (a ++ b) = callEvents a ++ callEvents b := by
  induction a with
  | nil => rfl
  | cons x a ih =>
    cases x with
    | call e => simp [callEvents, ih]
    | check ok msg => simp [callEvents, ih]

theorem runActs_append_err (oracle : Nat → Bool) (as bs : List Action) :
    ∀ i m, (runActs oracle as i).2 = some m →
      runActs oracle (as ++ bs) i = ((runActs oracle as i).1, some m) := by
  induction as with
  | nil => intro i m h; simp [runActs] at h
  | cons a rest ih =>
    intro i m h
    rw [List.cons_append]
    cases a with
    | call e =>
      cases ho : oracle i with
      | true =>
        have h' : (runActs oracle rest (i + 1)).2 = some m := by
          simpa [runActs, ho] using h
        simp [runActs, ho, ih (i + 1) m h']
      | false =>
        simp only [runActs, ho] at h
        simp only [Bool.false_eq_true, if_false, Option.some.injEq] at h
        subst h
        simp [runActs, ho]
    | check ok msg =>
      cases ok with
      | true =>
        have h' : (runActs oracle rest (i + 1)).2 = some m := by
          simpa [runActs] using h
        simp [runActs, ih (i + 1) m h']
      | false =>
        simp only [runActs, Bool.false_eq_true, if_false, Option.some.injEq] at h
        subst h
        simp [runActs]

theorem runActs_append_ok (oracle : Nat → Bool) (as bs : List Action) :
    ∀ i, (runActs oracle as i).2 = none →
      runActs oracle (as ++ bs) i =
        ((runActs oracle as i).1 ++ (runActs oracle bs (i + as.length)).1,
         (runActs oracle bs (i + as.length)).2) := by
  induction as with
  | nil => intro i _; simp [runActs]
  | cons a rest ih =>
    intro i h
    rw [List.cons_append, List.length_cons,
      show i + (rest.length + 1) = i + 1 + rest.length by omega]
    cases a with
    | call e =>
      cases ho : oracle i with
      | true =>
        have h' : (runActs oracle rest (i + 1)).2 = none := by
          simpa [runActs, ho] using h
        simp [runActs, ho, ih (i + 1) h']
      | false => simp [runActs, ho] at h
    | check ok msg =>
      cases ok with
      | true =>
        have h' : (runActs oracle rest (i + 1)).2 = none := by
          simpa [runActs] using h
        simp [runActs, ih (i + 1) h']
      | false => simp [runActs] at h

theorem mem_runActs (oracle : Nat → Bool) (as : List Action) :
    ∀ i e, e ∈ (runActs oracle as i).1 → Action.call e ∈ as := by
  induction as with
  | nil => intro i e h; simp [runActs] at h
  | cons a rest ih =>
    intro i e h
    cases a with
    | call e' =>
      cases ho : oracle i with
      | true =>
        simp only [runActs, ho, if_true] at h
        rcases List.mem_cons.mp h with rfl | h'
        · exact List.mem_cons_self _ _
        · exact List.mem_cons_of_mem _ (ih (i + 1) e h')
      | false => simp [runActs, ho] at h
    | check ok msg =>
      cases ok with
      | true =>
        simp only [runActs, if_true] at h
        exact List.mem_cons_of_mem _ (ih (i + 1) e h)
      | false => simp [runActs] at h

theorem runActs_none_events (oracle : Nat → Bool) (as : List Action) :
    ∀ i, (runActs oracle as i).2 = none →
      (runActs oracle as i).1 = callEvents as := by
  induction as with
  | nil => intro i _; rfl
  | cons a rest ih =>
    intro i h
    cases a with
    | call e =>
      cases ho : oracle i with
      | true =>
        have h' : (runActs oracle rest (i + 1)).2 = none := by
          simpa [runActs, ho] using h
        simp [runActs, ho, callEvents, ih (i + 1) h']
      | false => simp [runActs, ho] at h
    | check ok msg =>
      cases ok with
      | true =>
        have h' : (runActs oracle rest (i + 1)).2 = none := by
          simpa [runActs] using h
        simp [runActs, callEvents, ih (i + 1) h']
      | false => simp [runActs] at h

theorem runActs_allOk (oracle : Nat → Bool) (as : List Action)
    (ho : ∀ i, oracle i = true)
    (hg : ∀ b m, Action.check b m ∈ as → b = true) :
    ∀ i, (runActs oracle as i).2 = none := by
  induction as with
  | nil => intro i; rfl
  | cons a rest ih =>
    have hg' : ∀ b m, Action.check b m ∈ rest → b = true :=
      fun b m h => hg b m (List.mem_cons_of_mem _ h)
    intro i
    cases a with
    | call e =>
      simp only [runActs, if_pos (ho i)]
      exact ih hg' (i + 1)
    | check ok msg =>
      have : ok = true := hg ok msg (List.mem_cons_self _ _)
      subst this
      simp only [runActs, if_pos rfl]
      exact ih hg' (i + 1)

theorem runActs_checkFalse (oracle : Nat → Bool) (pre post : List Action)
    (msg : Chars) (i : Nat) :
    ((runActs oracle (pre ++ Action.check false msg :: post) i).2).isSome = true ∧
    (runActs oracle (pre ++ Action.check false msg :: post) i).1 =
      (runActs oracle pre i).1 := by
  cases h : (runActs oracle pre i).2 with
  | some m =>
    rw [runActs_append_err oracle pre _ i m h]
    exact ⟨rfl, rfl⟩
  | none =>
    rw [runActs_append_ok oracle pre _ i h]
    simp [runActs]

/-! ## The module's global names (build.py lines 1-18)

`build.py` imports `os`, `re`, `shutil`, `tarfile`, `zipfile`,
`zstandard as zstd`, `core`, `Context`, and from its own package
`logger`, `ImageBuilder`, `OpenWrt`, `paths`, `del_cache`, `dl_artifact`,
`uploader`, `hash_dirs`, `setup_env`; together with the module-level
function definitions these are the only names resolvable at module scope.
`glob` is not among them, so evaluating `glob.glob(...)` at line 305
raises `NameError`. -/

def moduleGlobals : List String :=
  ["os", "re", "shutil", "tarfile", "zipfile", "zstd", "core", "Context",
   "logger", "ImageBuilder", "OpenWrt", "paths", "del_cache", "dl_artifact",
   "uploader", "hash_dirs", "setup_env",
   "get_cache_restore_key", "prepare", "base_builds", "build_packages",
   "build_image_builder", "build_images"]

/-! ## File classification and stage artifact keys -/

/-- `file.endswith(".ipk")` (build.py line 183). -/
def isIpk (f : Chars) : Bool := ".ipk".data.isSuffixOf f

/-- `file.startswith("kmod-") and file.endswith(".ipk")` (build.py line 237). -/
def isKmodIpk (f : Chars) : Bool :=
  "kmod-".data.isPrefixOf f && ".ipk".data.isSuffixOf f

/-- The general package collector: the loop of build.py lines 181-184
over all file names found when walking `bin/`. -/
def collectIpk : List Chars → List Chars
  | [] => []
  | f :: fs => if isIpk f then f :: collectIpk fs else collectIpk fs

/-- The kmods collector: the loop of build.py lines 235-238. -/
def collectKmods : List Chars → List Chars
  | [] => []
  | f :: fs => if isKmodIpk f then f :: collectKmods fs else collectKmods fs

/-- Artifact key `base-builds-<name>` (build.py line 160). -/
def baseKey (cfgName : Chars) : Chars := "base-builds-".data ++ cfgName

/-- Artifact key `packages-<name>` (build.py line 186). -/
def packagesKey (cfgName : Chars) : Chars := "packages-".data ++ cfgName

/-- Artifact key `kmods-<name>` (build.py line 240). -/
def kmodsKey (cfgName : Chars) : Chars := "kmods-".data ++ cfgName

/-- Artifact key `Image_Builder-<name>` (build.py line 315). -/
def ibKey (cfgName : Chars) : Chars := "Image_Builder-".data ++ cfgName

theorem ibKey_ne_kmodsKey (c : Chars) : ibKey c ≠ kmodsKey c := by
  intro h
  have h1 : ibKey c = 'I' :: ("mage_Builder-".data ++ c) := rfl
  have h2 : kmodsKey c = 'k' :: ("mods-".data ++ c) := rfl
  rw [h1, h2] at h
  injection h with h3 _
  exact absurd h3 (by decide)

/-! ## The `build_image_builder` stage (build.py lines 191-319)

Parameters of the model: `cfgName` is `cfg["name"]`; `binFiles` the file
names encountered when walking `bin/`; `tinfo` the result of
`openwrt.get_target()`; `targetDirFiles` the listing of
`bin/targets/<target>/<subtarget>`; `ibMatches` the glob matches the
commented-out pattern would produce; `ck` the stage's cache restore key.
The firmware-file check of lines 250-266 is commented out in the source
and therefore absent from the model; the `glob` name lookup at line 305
is an unconditionally failing check because `glob` is not in
`moduleGlobals`. -/

def nameErrGlob : Chars := "NameError: name glob is not defined".data

def noTargetMsg : Chars := "无法获取target信息".data

def noIbFileMsg : Chars := "没有找到匹配的 ImageBuilder 文件".data

/-- Steps of `build_image_builder` up to (not including) the `glob` name
lookup of line 305. -/
def build_image_builder_pre (cfgName : Chars) (binFiles : List Chars)
    (tinfo : Option (Chars × Chars)) (targetDirFiles : List Chars) :
    List Action :=
  [Action.call (Event.enableKmods true),
   Action.call Event.writeConfigFile,
   Action.call Event.makeDefconfig,
   Action.call (Event.downloadSource ([] : Chars)),
   Action.call (Event.make "package/compile".data),
   Action.call (Event.make "package/install".data),
   Action.call (Event.make "target/install".data),
   Action.call (Event.make "package/index".data),
   Action.call (Event.make "json_overview_image_info".data),
   Action.call (Event.make "checksum".data)]
  ++ (collectKmods binFiles).map (fun f => Action.call (Event.copyFile f))
  ++ [Action.call (Event.uploadAdd (kmodsKey cfgName)),
      Action.check tinfo.isSome noTargetMsg,
      Action.call (Event.logDir "bin".data),
      Action.call (Event.logDir "bin/targets".data),
      Action.call (Event.logDir ("bin/targets/".data ++ (tinfo.map Prod.fst).getD [])),
      Action.call (Event.logListing targetDirFiles)]

/-- Steps of `build_image_builder` after the `glob` name lookup
(build.py lines 305-319): the empty-glob check, the move, the
`Image_Builder` upload registration and the cache deletion. -/
def build_image_builder_post (cfgName : Chars) (ibMatches : List Chars)
    (ck : Chars) : List Action :=
  [Action.check (!ibMatches.isEmpty) noIbFileMsg,
   Action.call (Event.moveFile "openwrt-imagebuilder".data),
   Action.call (Event.uploadAdd (ibKey cfgName)),
   Action.call (Event.delCache ck)]

/-- The whole `build_image_builder` stage.  The check in the middle is the
Python name resolution of `glob` at line 305. -/
def build_image_builder_acts (cfgName : Chars) (binFiles : List Chars)
    (tinfo : Option (Chars × Chars)) (targetDirFiles : List Chars)
    (ibMatches : List Chars) (ck : Chars) : List Action :=
  build_image_builder_pre cfgName binFiles tinfo targetDirFiles
  ++ Action.check (moduleGlobals.contains "glob") nameErrGlob
  :: build_image_builder_post cfgName ibMatches ck

/-! ## The `base_builds` stage (build.py lines 121-163) -/

/-- The toolchain rebuild steps skipped on a cache hit
(build.py lines 134-143). -/
def toolchainSteps : List Action :=
  [Action.call (Event.downloadSource "tools/download".data),
   Action.call (Event.downloadSource "target/prereq".data),
   Action.call (Event.downloadSource "toolchain/download".data),
   Action.call (Event.make "tools/install".data),
   Action.call (Event.make "toolchain/install".data),
   Action.call (Event.make "clean".data)]

/-- Steps of `base_builds` before the cache deletion.  `cacheHit` is the
value of the `CACHE_HIT` environment variable (`none` when unset);
`ccacheExists` tells whether `<openwrt>/.ccache` exists. -/
def base_builds_pre (cfgName : Chars) (cacheHit : Option Chars)
    (ccacheExists : Bool) : List Action :=
  (if ccacheExists then [Action.call Event.ccacheStash] else [])
  ++ [Action.call (Event.enableKmods false)]
  ++ (if pyStrip (pyLower (cacheHit.getD [])) = "true".data then []
      else toolchainSteps)
  ++ [Action.call (Event.downloadSource "target/download".data)]
  ++ (if ccacheExists then [Action.call Event.ccacheRestore] else [])
  ++ [Action.call (Event.make "target/compile".data),
      Action.call (Event.archiveCreate "builds.tar.gz".data),
      Action.call (Event.uploadAdd (baseKey cfgName))]

/-- The whole `base_builds` stage: all build steps, the upload, then the
stale-cache deletion (build.py line 163). -/
def base_builds_acts (cfgName : Chars) (cacheHit : Option Chars)
    (ccacheExists : Bool) (ck : Chars) : List Action :=
  base_builds_pre cfgName cacheHit ccacheExists
    ++ [Action.call (Event.delCache ck)]

/-! ## The `build_packages` stage (build.py lines 166-189) -/

/-- Steps of `build_packages` before the cache deletion. -/
def build_packages_pre (cfgName : Chars) (binFiles : List Chars) :
    List Action :=
  [Action.call (Event.downloadSource ([] : Chars)),
   Action.call (Event.make "package/compile".data),
   Action.call (Event.make "package/install".data)]
  ++ (collectIpk binFiles).map (fun f => Action.call (Event.copyFile f))
  ++ [Action.call (Event.uploadAdd (packagesKey cfgName))]

/-- The whole `build_packages` stage (build.py line 189 ends with the
stale-cache deletion). -/
def build_packages_acts (cfgName : Chars) (binFiles : List Chars)
    (ck : Chars) : List Action :=
  build_packages_pre cfgName binFiles ++ [Action.call (Event.delCache ck)]

/-- C8: the general package collector selects exactly the file names
ending in `.ipk`, the kmods collector exactly those that both start with
`kmod-` and end in `.ipk`; on the claim's example directory the bundles
are as stated. -/
theorem c8_collectors :
    (∀ files f, f ∈ collectIpk files ↔
      f ∈ files ∧ ".ipk".data.isSuffixOf f = true) ∧
    (∀ files f, f ∈ collectKmods files ↔
      f ∈ files ∧ "kmod-".data.isPrefixOf f = true ∧
        ".ipk".data.isSuffixOf f = true) ∧
    collectIpk ["a.ipk".data, "kmod-x.ipk".data, "notes.txt".data] =
      ["a.ipk".data, "kmod-x.ipk".data] ∧
    collectKmods ["a.ipk".data, "kmod-x.ipk".data, "notes.txt".data] =
      ["kmod-x.ipk".data] := by
  refine ⟨?_, ?_, by decide, by decide⟩
  · intro files f
    induction files with
    | nil => simp [collectIpk]
    | cons g gs ih =>
      by_cases h : isIpk g = true
      · simp only [collectIpk, if_pos h, List.mem_cons, ih]
        constructor
        · rintro (rfl | ⟨hf, hi⟩)
          · exact ⟨Or.inl rfl, h⟩
          · exact ⟨Or.inr hf, hi⟩
        · rintro ⟨rfl | hf, hi⟩
          · exact Or.inl rfl
          · exact Or.inr ⟨hf, hi⟩
      · simp only [collectIpk, if_neg h, ih, List.mem_cons]
        constructor
        · rintro ⟨hf, hi⟩
          exact ⟨Or.inr hf, hi⟩
        · rintro ⟨rfl | hf, hi⟩
          · exact absurd hi h
          · exact ⟨hf, hi⟩
  · intro files f
    have hk : ∀ g, isKmodIpk g = true ↔
        "kmod-".data.isPrefixOf g = true ∧ ".ipk".data.isSuffixOf g = true := by
      intro g
      simp [isKmodIpk, Bool.and_eq_true]
    induction files with
    | nil => simp [collectKmods]
    | cons g gs ih =>
      by_cases h : isKmodIpk g = true
      · simp only [collectKmods, if_pos h, List.mem_cons, ih]
        constructor
        · rintro (rfl | ⟨hf, hi⟩)
          · exact ⟨Or.inl rfl, (hk f).mp h⟩
          · exact ⟨Or.inr hf, hi⟩
        · rintro ⟨rfl | hf, hi⟩
          · exact Or.inl rfl
          · exact Or.inr ⟨hf, hi⟩
      · simp only [collectKmods, if_neg h, ih, List.mem_cons]
        constructor
        · rintro ⟨hf, hi⟩
          exact ⟨Or.inr hf, hi⟩
        · rintro ⟨rfl | hf, hi⟩
          · exact absurd ((hk f).mpr hi) h
          · exact ⟨hf, hi⟩

/-- C8 witness: the membership characterisation applied at the concrete
file name `kmod-x.ipk` in the example directory. -/
theorem c8_collectors_witness :
    "kmod-x.ipk".data ∈
      collectKmods ["a.ipk".data, "kmod-x.ipk".data, "notes.txt".data] :=
  (c8_collectors.2.1 ["a.ipk".data, "kmod-x.ipk".data, "notes.txt".data]
    "kmod-x.ipk".data).mpr ⟨by decide, by decide, by decide⟩

/-! ## The stage dispatcher (`prepare`, build.py lines 41-119)

`prepare` restores the source archive for every job, then selects exactly
one branch by equality/membership tests on `context.job`:
`base-builds`; `build-packages`/`build-ImageBuilder` (one shared branch);
`build-images-releases`; anything else raises
`ValueError(f"未知的工作流 {context.job}")` before any branch body runs. -/

/-- The supported job names. -/
def supportedJobs : List String :=
  ["base-builds", "build-packages", "build-ImageBuilder",
   "build-images-releases"]

/-- The three handler branches of `prepare`'s dispatch. -/
inductive PrepBranch where
  | baseBuilds
  | restoreBuilds
  | imagesReleases
deriving DecidableEq

/-- The dispatch of build.py lines 57, 67, 76 and 110-112. -/
def prepareBranch (job : String) : Except String PrepBranch :=
  if job = "base-builds" then .ok .baseBuilds
  else if job = "build-packages" ∨ job = "build-ImageBuilder" then
    .ok .restoreBuilds
  else if job = "build-images-releases" then .ok .imagesReleases
  else .error ("未知的工作流 " ++ job)

/-- The side effects `prepare` performs for every job before dispatching
(build.py lines 44-55): environment setup, download and double extraction
of the source archive. -/
def prepCommon (job : String) (cfgName : Chars) : List Event :=
  [Event.setupEnv
    (["build-packages", "build-ImageBuilder", "build-images-releases"].contains job)
    (["build-packages", "build-ImageBuilder", "build-images-releases"].contains job),
   Event.dlArtifact ("openwrt-source-".data ++ cfgName),
   Event.extractArchive "openwrt-source.tar.gz".data]

/-- The side effects of each handler branch (build.py lines 57-108),
at the granularity of the observable operations. -/
def branchEvents : PrepBranch → Chars → List Event
  | .baseBuilds, _ => [Event.setOutput "toolchain-key".data]
  | .restoreBuilds, c =>
    [Event.rmTree "staging_dir".data,
     Event.dlArtifact ("base-builds-".data ++ c),
     Event.extractArchive "builds.tar.gz".data]
  | .imagesReleases, c =>
    [Event.dlArtifact ("Image_Builder-".data ++ c),
     Event.extractArchive "openwrt-imagebuilder".data,
     Event.dlArtifact ("packages-".data ++ c),
     Event.copyTree "files".data,
     Event.copyFile ".config".data]

/-- The outputs published after a successful dispatch
(build.py lines 114-119). -/
def prepTail (job : String) : List Event :=
  (if job = "base-builds" ∨ job = "build-packages" ∨ job = "build-ImageBuilder"
   then [Event.setOutput "cache-key".data, Event.setOutput "cache-restore-key".data]
   else [])
  ++ [Event.setOutput "use-cache".data, Event.setOutput "openwrt-path".data]

/-- `prepare` as a whole: the common restore, then either one branch body
plus the published outputs, or the `ValueError` with no branch effects. -/
def prepareRun (job : String) (cfgName : Chars) :
    List Event × Except String PrepBranch :=
  match prepareBranch job with
  | .ok b => (prepCommon job cfgName ++ branchEvents b cfgName ++ prepTail job, .ok b)
  | .error m => (prepCommon job cfgName, .error m)

theorem prepareBranch_unknown (job : String) (hj : job ∉ supportedJobs) :
    prepareBranch job = .error ("未知的工作流 " ++ job) := by
  have h1 : ¬job = "base-builds" := fun h => hj (by simp [supportedJobs, h])
  have h2 : ¬(job = "build-packages" ∨ job = "build-ImageBuilder") := by
    rintro (h | h) <;> exact hj (by simp [supportedJobs, h])
  have h3 : ¬job = "build-images-releases" := fun h => hj (by simp [supportedJobs, h])
  rw [prepareBranch, if_neg h1, if_neg h2, if_neg h3]

/-- C6: every supported job name selects exactly one handler branch; any
other job name makes `prepare` raise the `ValueError` with no handler
branch selected and no handler side effects performed (only the common
source restore precedes the dispatch). -/
theorem c6_dispatch (job : String) (cfgName : Chars) :
    (job ∈ supportedJobs ↔ ∃ b, prepareBranch job = .ok b) ∧
    (∀ b b', prepareBranch job = .ok b → prepareBranch job = .ok b' → b = b') ∧
    (job ∉ supportedJobs →
      prepareBranch job = .error ("未知的工作流 " ++ job) ∧
      (prepareRun job cfgName).1 = prepCommon job cfgName ∧
      ∀ b, (prepareRun job cfgName).2 ≠ .ok b) := by
  refine ⟨⟨?_, ?_⟩, ?_, ?_⟩
  · intro hj
    simp only [supportedJobs, List.mem_cons, List.not_mem_nil, or_false] at hj
    rcases hj with rfl | rfl | rfl | rfl
    · exact ⟨.baseBuilds, rfl⟩
    · exact ⟨.restoreBuilds, rfl⟩
    · exact ⟨.restoreBuilds, rfl⟩
    · exact ⟨.imagesReleases, rfl⟩
  · rintro ⟨b, hb⟩
    by_contra hj
    rw [prepareBranch_unknown job hj] at hb
    exact Except.noConfusion hb
  · intro b b' h h'
    rw [h] at h'
    exact Except.ok.inj h'
  · intro hj
    have he := prepareBranch_unknown job hj
    refine ⟨he, ?_, ?_⟩
    · simp [prepareRun, he]
    · intro b
      simp [prepareRun, he]

/-- C6 witness: the theorem applied at the concrete unsupported job name
`deploy`. -/
theorem c6_dispatch_witness :
    prepareBranch "deploy" = .error ("未知的工作流 " ++ "deploy") ∧
    (prepareRun "deploy" "x".data).1 = prepCommon "deploy" "x".data ∧
    ∀ b, (prepareRun "deploy" "x".data).2 ≠ .ok b :=
  (c6_dispatch "deploy" "x".data).2.2 (by decide)

/-- C7: in `base_builds` the toolchain rebuild steps (tools/toolchain
source downloads, `tools/install`, `toolchain/install`, `clean`) are
skipped exactly when the `CACHE_HIT` environment value, lowercased and
stripped of surrounding whitespace, equals `true`; for every other value,
including unset (`none`), they all run; and the kernel download and
compile steps are present in either case.  The last conjunct shows that
the code's `lower`-then-`strip` normalization agrees with the claim's
strip-then-compare-case-insensitively reading. -/
theorem c7_cache_hit_skip (cfgName : Chars) (cacheHit : Option Chars)
    (ccacheExists : Bool) (ck : Chars) :
    (pyLower (pyStrip (cacheHit.getD [])) = "true".data →
      ∀ a ∈ toolchainSteps,
        a ∉ base_builds_acts cfgName cacheHit ccacheExists ck) ∧
    (pyLower (pyStrip (cacheHit.getD [])) ≠ "true".data →
      ∀ a ∈ toolchainSteps,
        a ∈ base_builds_acts cfgName cacheHit ccacheExists ck) ∧
    Action.call (Event.downloadSource "target/download".data) ∈
      base_builds_acts cfgName cacheHit ccacheExists ck ∧
    Action.call (Event.make "target/compile".data) ∈
      base_builds_acts cfgName cacheHit ccacheExists ck ∧
    pyStrip (pyLower (cacheHit.getD [])) = pyLower (pyStrip (cacheHit.getD [])) := by
  have hcomm := pyStrip_pyLower (cacheHit.getD [])
  refine ⟨?_, ?_, ?_, ?_, hcomm⟩
  · intro h a ha
    have hcode : pyStrip (pyLower (cacheHit.getD [])) = "true".data := by
      rw [hcomm]; exact h
    intro hmem
    simp only [toolchainSteps, List.mem_cons, List.not_mem_nil, or_false] at ha
    rcases ha with rfl | rfl | rfl | rfl | rfl | rfl <;>
      cases ccacheExists <;>
      simp [base_builds_acts, base_builds_pre, hcode] at hmem
  · intro h a ha
    have hcode : ¬pyStrip (pyLower (cacheHit.getD [])) = "true".data := by
      rw [hcomm]; exact h
    simp only [toolchainSteps, List.mem_cons, List.not_mem_nil, or_false] at ha
    rcases ha with rfl | rfl | rfl | rfl | rfl | rfl <;>
      cases ccacheExists <;>
      simp [base_builds_acts, base_builds_pre, toolchainSteps, hcode]
  · by_cases hcode : pyStrip (pyLower (cacheHit.getD [])) = "true".data <;>
      cases ccacheExists <;>
      simp [base_builds_acts, base_builds_pre, toolchainSteps, hcode]
  · by_cases hcode : pyStrip (pyLower (cacheHit.getD [])) = "true".data <;>
      cases ccacheExists <;>
      simp [base_builds_acts, base_builds_pre, toolchainSteps, hcode]

/-- C7 witness: the theorem applied at the concrete environment values
`" TRUE "` (mixed case, surrounded by spaces) and `"\x1ctrue"` (leading
U+001C file separator, which Python's `str.strip()` removes), both of
which skip the `tools/install` step. -/
theorem c7_cache_hit_skip_witness :
    pyLower (pyStrip ((some " TRUE ".data : Option Chars).getD [])) = "true".data ∧
    Action.call (Event.make "tools/install".data) ∉
      base_builds_acts "x".data (some " TRUE ".data) false "k".data ∧
    pyLower (pyStrip ((some "\x1ctrue".data : Option Chars).getD [])) = "true".data ∧
    Action.call (Event.make "tools/install".data) ∉
      base_builds_acts "x".data (some "\x1ctrue".data) false "k".data :=
  ⟨by decide,
   (c7_cache_hit_skip "x".data (some " TRUE ".data) false "k".data).1
     (by decide) (Action.call (Event.make "tools/install".data)) (by decide),
   by decide,
   (c7_cache_hit_skip "x".data (some "\x1ctrue".data) false "k".data).1
     (by decide) (Action.call (Event.make "tools/install".data)) (by decide)⟩

/-! ## The unreachable tail of `build_image_builder` -/

theorem ib_acts_as_checkFalse (cfgName : Chars) (binFiles : List Chars)
    (tinfo : Option (Chars × Chars)) (targetDirFiles ibMatches : List Chars)
    (ck : Chars) :
    build_image_builder_acts cfgName binFiles tinfo targetDirFiles ibMatches ck =
      build_image_builder_pre cfgName binFiles tinfo targetDirFiles ++
        Action.check false nameErrGlob ::
          build_image_builder_post cfgName ibMatches ck := by
  have hglob : moduleGlobals.contains "glob" = false := by decide
  rw [build_image_builder_acts, hglob]

theorem ibStage_aborts (cfgName : Chars) (binFiles : List Chars)
    (tinfo : Option (Chars × Chars)) (targetDirFiles ibMatches : List Chars)
    (ck : Chars) (oracle : Nat → Bool) :
    ((runActs oracle
        (build_image_builder_acts cfgName binFiles tinfo targetDirFiles ibMatches ck)
        0).2).isSome = true ∧
    (runActs oracle
        (build_image_builder_acts cfgName binFiles tinfo targetDirFiles ibMatches ck)
        0).1 =
      (runActs oracle (build_image_builder_pre cfgName binFiles tinfo targetDirFiles) 0).1 := by
  rw [ib_acts_as_checkFalse]
  exact runActs_checkFalse oracle _ _ nameErrGlob 0

theorem ibPre_no_ib_upload (cfgName : Chars) (binFiles : List Chars)
    (tinfo : Option (Chars × Chars)) (targetDirFiles : List Chars) :
    Action.call (Event.uploadAdd (ibKey cfgName)) ∉
      build_image_builder_pre cfgName binFiles tinfo targetDirFiles := by
  intro hmem
  simp only [build_image_builder_pre, List.mem_append, List.mem_cons,
    List.mem_map, List.mem_singleton, List.not_mem_nil, or_false] at hmem
  rcases hmem with ((h | h | h | h | h | h | h | h | h | h) | ⟨f, -, h⟩) |
    (h | h | h | h | h | h)
  all_goals first
    | exact Action.noConfusion h
    | (injection h with h'
       exact Event.noConfusion h')
    | (injection h with h'
       injection h' with h''
       exact absurd h'' (ibKey_ne_kmodsKey cfgName))

theorem ibPre_checks (cfgName : Chars) (binFiles : List Chars)
    (tinfo : Option (Chars × Chars)) (targetDirFiles : List Chars)
    (ht : tinfo.isSome = true) :
    ∀ b m, Action.check b m ∈
      build_image_builder_pre cfgName binFiles tinfo targetDirFiles →
      b = true := by
  intro b m hb
  simp only [build_image_builder_pre, List.mem_append, List.mem_cons,
    List.mem_map, List.mem_singleton, List.not_mem_nil, or_false] at hb
  rcases hb with ((h | h | h | h | h | h | h | h | h | h) | ⟨f, -, h⟩) |
    (h | h | h | h | h | h)
  all_goals first
    | exact Action.noConfusion h
    | (injection h with h' h''
       rw [h']
       exact ht)

/-- C2: `glob` is not among the module's global names, so every execution
of `build_image_builder` that reaches the ImageBuilder-file matching step
(target and subtarget available, all earlier external steps succeeded)
aborts there with the `NameError`; and no execution of the stage, under
any oracle, ever registers the `Image_Builder` artifact with the
uploader. -/
theorem c2_no_image_builder_upload (cfgName : Chars) (binFiles : List Chars)
    (tinfo : Option (Chars × Chars)) (targetDirFiles ibMatches : List Chars)
    (ck : Chars) (oracle : Nat → Bool) :
    moduleGlobals.contains "glob" = false ∧
    Event.uploadAdd (ibKey cfgName) ∉
      (runActs oracle
        (build_image_builder_acts cfgName binFiles tinfo targetDirFiles ibMatches ck)
        0).1 ∧
    (tinfo.isSome = true → (∀ i, oracle i = true) →
      (runActs oracle
        (build_image_builder_acts cfgName binFiles tinfo targetDirFiles ibMatches ck)
        0).2 = some nameErrGlob) := by
  refine ⟨by decide, ?_, ?_⟩
  · intro hmem
    rw [(ibStage_aborts cfgName binFiles tinfo targetDirFiles ibMatches ck oracle).2]
      at hmem
    exact ibPre_no_ib_upload cfgName binFiles tinfo targetDirFiles
      (mem_runActs oracle _ 0 _ hmem)
  · intro ht ho
    have hpre : (runActs oracle
        (build_image_builder_pre cfgName binFiles tinfo targetDirFiles) 0).2 = none :=
      runActs_allOk oracle _ ho
        (ibPre_checks cfgName binFiles tinfo targetDirFiles ht) 0
    rw [ib_acts_as_checkFalse,
      runActs_append_ok oracle _ _ 0 hpre]
    simp [runActs]

/-- C2 witness: the theorem applied at a concrete state that reaches the
matching step (target available, all external calls succeed). -/
theorem c2_no_image_builder_upload_witness :
    (Option.isSome (some ("qualcommax".data, "ipq807x".data)) = true) ∧
    (runActs (fun _ => true)
      (build_image_builder_acts "x".data []
        (some ("qualcommax".data, "ipq807x".data)) [] [] "k".data)
      0).2 = some nameErrGlob :=
  ⟨rfl,
   (c2_no_image_builder_upload "x".data []
      (some ("qualcommax".data, "ipq807x".data)) [] [] "k".data
      (fun _ => true)).2.2 rfl (fun _ => rfl)⟩

/-- C3: when no file in the target output directory ends in `.ubi` or
`.bin`, the image-builder packaging stage aborts with an error (non-zero
exit) and never registers the `Image_Builder` artifact.  (In the source
the dedicated firmware check of lines 250-266 is commented out; the stage
aborts unconditionally at the `glob` name lookup of line 305, before the
upload at line 315, so the claimed conditional guarantee holds.) -/
theorem c3_no_firmware_no_upload (cfgName : Chars) (binFiles : List Chars)
    (tinfo : Option (Chars × Chars)) (targetDirFiles ibMatches : List Chars)
    (ck : Chars) (oracle : Nat → Bool)
    (_hfw : ∀ f ∈ targetDirFiles,
      ".ubi".data.isSuffixOf f = false ∧ ".bin".data.isSuffixOf f = false) :
    ((runActs oracle
        (build_image_builder_acts cfgName binFiles tinfo targetDirFiles ibMatches ck)
        0).2).isSome = true ∧
    Event.uploadAdd (ibKey cfgName) ∉
      (runActs oracle
        (build_image_builder_acts cfgName binFiles tinfo targetDirFiles ibMatches ck)
        0).1 := by
  refine ⟨(ibStage_aborts cfgName binFiles tinfo targetDirFiles ibMatches ck oracle).1, ?_⟩
  intro hmem
  rw [(ibStage_aborts cfgName binFiles tinfo targetDirFiles ibMatches ck oracle).2]
    at hmem
  exact ibPre_no_ib_upload cfgName binFiles tinfo targetDirFiles
    (mem_runActs oracle _ 0 _ hmem)

/-! ## Cache deletion comes last in every stage -/

theorem mem_callEvents (as : List Action) (e : Event) :
    e ∈ callEvents as → Action.call e ∈ as := by
  induction as with
  | nil => intro h; simp [callEvents] at h
  | cons a rest ih =>
    intro h
    cases a with
    | call e' =>
      rcases List.mem_cons.mp h with rfl | h'
      · exact List.mem_cons_self _ _
      · exact List.mem_cons_of_mem _ (ih h')
    | check ok msg => exact List.mem_cons_of_mem _ (ih h)

theorem delCache_tail (oracle : Nat → Bool) (pre : List Action) (ck : Chars)
    (hnd : ∀ m : Chars, Action.call (Event.delCache m) ∉ pre) :
    (Event.delCache ck ∈
        (runActs oracle (pre ++ [Action.call (Event.delCache ck)]) 0).1 →
      (runActs oracle pre 0).2 = none ∧
      (runActs oracle (pre ++ [Action.call (Event.delCache ck)]) 0).1 =
        callEvents pre ++ [Event.delCache ck]) ∧
    (((runActs oracle pre 0).2).isSome = true →
      Event.delCache ck ∉
        (runActs oracle (pre ++ [Action.call (Event.delCache ck)]) 0).1) := by
  cases h : (runActs oracle pre 0).2 with
  | some m =>
    rw [runActs_append_err oracle pre _ 0 m h]
    constructor
    · intro hmem
      exact absurd (mem_runActs oracle pre 0 _ hmem) (hnd ck)
    · intro _ hmem
      exact absurd (mem_runActs oracle pre 0 _ hmem) (hnd ck)
  | none =>
    rw [runActs_append_ok oracle pre _ 0 h]
    constructor
    · intro hmem
      refine ⟨rfl, ?_⟩
      rw [runActs_none_events oracle pre 0 h]
      cases ho : oracle (0 + pre.length) with
      | true =>
        rw [Nat.zero_add] at ho
        simp [runActs, ho]
      | false =>
        exfalso
        rw [Nat.zero_add] at ho
        rw [runActs_none_events oracle pre 0 h] at hmem
        simp only [Nat.zero_add, runActs, ho, Bool.false_eq_true, if_false,
          List.append_nil] at hmem
        exact absurd (mem_callEvents pre _ hmem) (hnd ck)
    · intro habs
      simp at habs

theorem bbPre_no_delCache (cfgName : Chars) (cacheHit : Option Chars)
    (ccacheExists : Bool) :
    ∀ m : Chars, Action.call (Event.delCache m) ∉
      base_builds_pre cfgName cacheHit ccacheExists := by
  intro m hmem
  cases ccacheExists <;>
    by_cases hch : pyStrip (pyLower (cacheHit.getD [])) = "true".data <;>
    simp [base_builds_pre, toolchainSteps, hch] at hmem

theorem bpPre_no_delCache (cfgName : Chars) (binFiles : List Chars) :
    ∀ m : Chars, Action.call (Event.delCache m) ∉
      build_packages_pre cfgName binFiles := by
  intro m hmem
  simp [build_packages_pre] at hmem

theorem ibPre_no_delCache (cfgName : Chars) (binFiles : List Chars)
    (tinfo : Option (Chars × Chars)) (targetDirFiles : List Chars) :
    ∀ m : Chars, Action.call (Event.delCache m) ∉
      build_image_builder_pre cfgName binFiles tinfo targetDirFiles := by
  intro m hmem
  simp [build_image_builder_pre] at hmem

theorem bb_upload_in_callEvents (cfgName : Chars) (cacheHit : Option Chars)
    (ccacheExists : Bool) :
    Event.uploadAdd (baseKey cfgName) ∈
      callEvents (base_builds_pre cfgName cacheHit ccacheExists) := by
  cases ccacheExists <;>
    by_cases hch : pyStrip (pyLower (cacheHit.getD [])) = "true".data <;>
    simp [base_builds_pre, toolchainSteps, callEvents_append, callEvents, hch]

theorem bp_upload_in_callEvents (cfgName : Chars) (binFiles : List Chars) :
    Event.uploadAdd (packagesKey cfgName) ∈
      callEvents (build_packages_pre cfgName binFiles) := by
  simp [build_packages_pre, callEvents_append, callEvents]

/-- C9: in each of the three cache-deleting stages, the stale-cache
deletion is the last step: it occurs only when every earlier build step
and the upload registration completed without raising (and then the trace
shows the upload before the deletion), and it never occurs when any
earlier step raised.  In `build_image_builder` the deletion never occurs
at all, because the stage always aborts at the `glob` lookup first. -/
theorem c9_cache_deletion_ordering (cfgName : Chars) (cacheHit : Option Chars)
    (ccacheExists : Bool) (pkgBinFiles ibBinFiles : List Chars)
    (tinfo : Option (Chars × Chars)) (targetDirFiles ibMatches : List Chars)
    (ck : Chars) (oracle : Nat → Bool) :
    (Event.delCache ck ∈
        (runActs oracle (base_builds_acts cfgName cacheHit ccacheExists ck) 0).1 →
      (runActs oracle (base_builds_pre cfgName cacheHit ccacheExists) 0).2 = none ∧
      (runActs oracle (base_builds_acts cfgName cacheHit ccacheExists ck) 0).1 =
        callEvents (base_builds_pre cfgName cacheHit ccacheExists) ++
          [Event.delCache ck] ∧
      Event.uploadAdd (baseKey cfgName) ∈
        (runActs oracle (base_builds_acts cfgName cacheHit ccacheExists ck) 0).1) ∧
    (((runActs oracle (base_builds_pre cfgName cacheHit ccacheExists) 0).2).isSome = true →
      Event.delCache ck ∉
        (runActs oracle (base_builds_acts cfgName cacheHit ccacheExists ck) 0).1) ∧
    (Event.delCache ck ∈
        (runActs oracle (build_packages_acts cfgName pkgBinFiles ck) 0).1 →
      (runActs oracle (build_packages_pre cfgName pkgBinFiles) 0).2 = none ∧
      (runActs oracle (build_packages_acts cfgName pkgBinFiles ck) 0).1 =
        callEvents (build_packages_pre cfgName pkgBinFiles) ++
          [Event.delCache ck] ∧
      Event.uploadAdd (packagesKey cfgName) ∈
        (runActs oracle (build_packages_acts cfgName pkgBinFiles ck) 0).1) ∧
    (((runActs oracle (build_packages_pre cfgName pkgBinFiles) 0).2).isSome = true →
      Event.delCache ck ∉
        (runActs oracle (build_packages_acts cfgName pkgBinFiles ck) 0).1) ∧
    (Event.delCache ck ∉
      (runActs oracle
        (build_image_builder_acts cfgName ibBinFiles tinfo targetDirFiles ibMatches ck)
        0).1) := by
  have hbb := delCache_tail oracle (base_builds_pre cfgName cacheHit ccacheExists)
    ck (bbPre_no_delCache cfgName cacheHit ccacheExists)
  have hbp := delCache_tail oracle (build_packages_pre cfgName pkgBinFiles)
    ck (bpPre_no_delCache cfgName pkgBinFiles)
  refine ⟨?_, ?_, ?_, ?_, ?_⟩
  · intro hmem
    obtain ⟨hnone, hevs⟩ := hbb.1 hmem
    refine ⟨hnone, hevs, ?_⟩
    rw [show (runActs oracle (base_builds_acts cfgName cacheHit ccacheExists ck) 0).1
        = (runActs oracle (base_builds_pre cfgName cacheHit ccacheExists ++
            [Action.call (Event.delCache ck)]) 0).1 from rfl, hevs]
    exact List.mem_append_left _ (bb_upload_in_callEvents cfgName cacheHit ccacheExists)
  · exact hbb.2
  · intro hmem
    obtain ⟨hnone, hevs⟩ := hbp.1 hmem
    refine ⟨hnone, hevs, ?_⟩
    rw [show (runActs oracle (build_packages_acts cfgName pkgBinFiles ck) 0).1
        = (runActs oracle (build_packages_pre cfgName pkgBinFiles ++
            [Action.call (Event.delCache ck)]) 0).1 from rfl, hevs]
    exact List.mem_append_left _ (bp_upload_in_callEvents cfgName pkgBinFiles)
  · exact hbp.2
  · intro hmem
    rw [(ibStage_aborts cfgName ibBinFiles tinfo targetDirFiles ibMatches ck oracle).2]
      at hmem
    exact ibPre_no_delCache cfgName ibBinFiles tinfo targetDirFiles ck
      (mem_runActs oracle _ 0 _ hmem)

/-- C9 witness: the theorem applied at a concrete `base_builds` run in
which every step succeeds: the deletion is in the trace, every earlier
step completed and the upload registration precedes it. -/
theorem c9_cache_deletion_ordering_witness :
    Event.delCache "k".data ∈
      (runActs (fun _ => true) (base_builds_acts "x".data none false "k".data) 0).1 ∧
    ((runActs (fun _ => true) (base_builds_pre "x".data none false) 0).2 = none ∧
     (runActs (fun _ => true) (base_builds_acts "x".data none false "k".data) 0).1 =
       callEvents (base_builds_pre "x".data none false) ++ [Event.delCache "k".data] ∧
     Event.uploadAdd (baseKey "x".data) ∈
       (runActs (fun _ => true) (base_builds_acts "x".data none false "k".data) 0).1) :=
  ⟨by decide,
   (c9_cache_deletion_ordering "x".data none false [] [] none [] [] "k".data
     (fun _ => true)).1 (by decide)⟩

/-- C3 witness: the theorem applied at a concrete target directory holding
no `.ubi`/`.bin` file. -/
theorem c3_no_firmware_no_upload_witness :
    ((runActs (fun _ => true)
        (build_image_builder_acts "x".data []
          (some ("qualcommax".data, "ipq807x".data))
          ["profiles.json".data, "sha256sums".data] [] "k".data)
        0).2).isSome = true ∧
    Event.uploadAdd (ibKey "x".data) ∉
      (runActs (fun _ => true)
        (build_image_builder_acts "x".data []
          (some ("qualcommax".data, "ipq807x".data))
          ["profiles.json".data, "sha256sums".data] [] "k".data)
        0).1 :=
  c3_no_firmware_no_upload "x".data []
    (some ("qualcommax".data, "ipq807x".data))
    ["profiles.json".data, "sha256sums".data] [] "k".data
    (fun _ => true) (by decide)

end BuildHelper
